-- Verification of the disagain Redis client core: a shallow embedding of the
-- RESP3 encoder, decoder, discard traversal and connection state machine
-- (src/disagain/connection.py, command.py, error.py), with theorems settling
-- the specification claims against the embedded code.
import Mathlib

-- Bytes are modeled as Nat (byte values 0..255); ASCII literals via str2bytes.
def str2bytes (s : String) : List Nat := s.toList.map Char.toNat

-- Python exceptions the embedded code can raise.  connection.py raises the
-- bare name ConnectionError, which resolves to the builtin (an OSError
-- subclass), not disagain.error.ConnectionError.  ResponseError carries the
-- code and message of error.ResponseError; its fields are kept as byte lists
-- (utf-8 decoding with errors=replace commutes with splitting on the space
-- byte 0x20, which never occurs inside a multi-byte utf-8 sequence).
-- fuelOut is a model artifact marking recursion-fuel exhaustion; it is never
-- produced when the fuel exceeds the frame nesting depth.
inductive PyErr where
  | connectionError (msg : String)
  | stateError (msg : String)
  | responseError (code message : List Nat)
  | notImplementedError
  | assertionError
  | valueError
  | typeError
  | incompleteReadError
  | fuelOut

-- The recursive response value built by Connection._read_response.
-- Python sets are modeled as duplicate-free lists in insertion order, dicts
-- as association lists in insertion order.
inductive RValue where
  | nullv
  | boolv (b : Bool)
  | intv (i : Int)
  | floatv (t : List Nat)
  | bytesv (b : List Nat)
  | arrayv (l : List RValue)
  | setv (l : List RValue)
  | mapv (l : List (RValue × RValue))

-- Canonical hash key of a hashable Python value.  bool is hash- and
-- eq-compatible with int (True == 1, False == 0).  Floats are carried as
-- their textual form; float/int cross equality is not modeled (no decoded
-- comparison in the code ever mixes them in the claims under study).
inductive HKey where
  | hnone
  | hint (i : Int)
  | hfloat (t : List Nat)
  | hbytes (b : List Nat)
deriving DecidableEq

def canon : RValue → Option HKey
  | .nullv => some .hnone
  | .boolv b => some (.hint (if b then 1 else 0))
  | .intv i => some (.hint i)
  | .floatv t => some (.hfloat t)
  | .bytesv b => some (.hbytes b)
  | _ => none

def isHashable (v : RValue) : Bool := (canon v).isSome

-- Python == as used by the embedded code.  The decoder only ever compares
-- set members and dict keys, which it has already checked to be hashable,
-- so the aggregate/aggregate case (structural in Python) is never reached;
-- comparisons between a hashable and a non-hashable value are False in
-- Python, as here.
def pyEq (x y : RValue) : Bool :=
  match canon x, canon y with
  | some a, some b => decide (a = b)
  | _, _ => false

-- dict insertion: an existing equal key keeps its position and key object,
-- only the value is replaced (CPython semantics); otherwise append.
def dictInsert : List (RValue × RValue) → RValue → RValue → List (RValue × RValue)
  | [], k, v => [(k, v)]
  | (a, b) :: t, k, v => if pyEq a k then (a, v) :: t else (a, b) :: dictInsert t k v

def dictLookup : List (RValue × RValue) → RValue → Option RValue
  | [], _ => none
  | (a, b) :: t, k => if pyEq a k then some b else dictLookup t k

-- set insertion: adding an element equal to a present one is a no-op.
def setInsert (s : List RValue) (v : RValue) : List RValue :=
  if s.any (fun x => pyEq x v) then s else s ++ [v]

-- The value bound to the last pair whose key equals k, scanning left to right.
def lastAssoc (pairs : List (RValue × RValue)) (k : RValue) : Option RValue :=
  pairs.foldl (fun o p => if pyEq p.1 k then some p.2 else o) none

-- ASCII decimal rendering of a nonnegative integer, as produced by the
-- b"%i" format for nonnegative arguments (no sign, no leading zeros).
def natToDecBytes (n : Nat) : List Nat :=
  if n < 10 then [48 + n] else natToDecBytes (n / 10) ++ [48 + n % 10]
termination_by n
decreasing_by exact Nat.div_lt_self (by omega) (by omega)

-- str(int) for any sign, used by Command.arg on integer arguments.
def intToDecBytes (i : Int) : List Nat :=
  if i < 0 then 45 :: natToDecBytes i.natAbs else natToDecBytes i.toNat

-- Python whitespace bytes stripped by int()/float().
def isPyWs (b : Nat) : Bool := b == 9 || b == 10 || b == 11 || b == 12 || b == 13 || b == 32

def pyStrip (l : List Nat) : List Nat :=
  ((l.dropWhile isPyWs).reverse.dropWhile isPyWs).reverse

def isDigitByte (b : Nat) : Bool := decide (48 ≤ b ∧ b ≤ 57)

def digitsValAux : List Nat → Nat → Option Nat
  | [], acc => some acc
  | b :: t, acc => if 48 ≤ b ∧ b ≤ 57 then digitsValAux t (acc * 10 + (b - 48)) else none

def digitsVal : List Nat → Option Nat
  | [] => none
  | l => digitsValAux l 0

-- int(bytes): strip whitespace, optional sign, decimal digits (underscore
-- digit grouping, accepted by Python but never present in RESP3 counts, is
-- omitted).  Returns none where Python raises ValueError.
def pyInt (l : List Nat) : Option Int :=
  match pyStrip l with
  | [] => none
  | b :: t =>
    if b = 43 then (digitsVal t).map (fun x => (x : Int))
    else if b = 45 then (digitsVal t).map (fun x => -(x : Int))
    else (digitsVal (b :: t)).map (fun x => (x : Int))

def toLowerByte (b : Nat) : Nat := if 65 ≤ b ∧ b ≤ 90 then b + 32 else b

def mantissaOK (m : List Nat) : Bool :=
  if 46 ∈ m then
    let a := m.takeWhile (fun b => b != 46)
    let c := (m.dropWhile (fun b => b != 46)).tail
    (decide (a ≠ []) || decide (c ≠ [])) && a.all isDigitByte && c.all isDigitByte
  else decide (m ≠ []) && m.all isDigitByte

def expPartOK (e : List Nat) : Bool :=
  match e with
  | 43 :: t => decide (t ≠ []) && t.all isDigitByte
  | 45 :: t => decide (t ≠ []) && t.all isDigitByte
  | t => decide (t ≠ []) && t.all isDigitByte

def numericOK (l : List Nat) : Bool :=
  if 101 ∈ l then
    mantissaOK (l.takeWhile (fun b => b != 101)) && expPartOK ((l.dropWhile (fun b => b != 101)).tail)
  else mantissaOK l

-- float(bytes): validity of the stripped text per the float() grammar
-- (decimal forms, inf, infinity, nan, case-insensitive, optional sign); the
-- value is carried as its stripped text, uninterpreted (no claim compares
-- decoded doubles).  Returns none where Python raises ValueError.
def pyFloatVal (l : List Nat) : Option (List Nat) :=
  let s := pyStrip l
  let low := s.map toLowerByte
  let body := match low with | 43 :: t => t | 45 :: t => t | t => t
  if body = str2bytes "inf" ∨ body = str2bytes "infinity" ∨ body = str2bytes "nan" ∨
      numericOK body = true then
    some s
  else none

-- StreamReader.readuntil(b"\r\n"): the returned data includes the separator;
-- at EOF without a separator asyncio raises IncompleteReadError (the partial
-- data is consumed out of the buffer into the exception).
def splitCRLF : List Nat → Option (List Nat × List Nat)
  | [] => none
  | b :: rest =>
    if b = 13 then
      match rest with
      | 10 :: r2 => some ([13, 10], r2)
      | _ => (splitCRLF rest).map (fun p => (b :: p.1, p.2))
    else
      (splitCRLF rest).map (fun p => (b :: p.1, p.2))

-- str.split(" ", 1): one part when no space occurs, else the text before the
-- first space and everything after it.
def splitFirstSpace (l : List Nat) : List (List Nat) :=
  if 32 ∈ l then [l.takeWhile (fun b => b != 32), (l.dropWhile (fun b => b != 32)).tail] else [l]

-- error.ResponseError.from_response: decode, split(" ", 1), unpack into
-- (code, message); unpacking a single part raises ValueError.
def from_response (resp : List Nat) : Except PyErr (List Nat × List Nat) :=
  match splitFirstSpace resp with
  | [c, m] => .ok (c, m)
  | _ => .error .valueError

def incompleteMsg : String := "reading data from stream returned incomplete response."
def closedMsg : String := "The connection is already closed."
def writeClosedMsg : String := "Cannot send commands to a closed connection."
-- The host/port and OS error interpolated into the source f-string are
-- elided from the modeled message.
def readFailMsg : String := "Failed to read from host:port"

-- Connection._read_bytes: assert n > 0, then a single read(n + 2) (returning
-- whatever is available up to n + 2 bytes, fewer at EOF), then check that
-- the last two returned bytes are CRLF and strip them.
def readBytesM (n : Int) (s : List Nat) : Except PyErr (List Nat) × List Nat :=
  if n ≤ 0 then (.error .assertionError, s)
  else
    let k := n.toNat + 2
    let chunk := s.take k
    let rest := s.drop k
    if chunk.drop (chunk.length - 2) = [13, 10] then
      (.ok (chunk.take (chunk.length - 2)), rest)
    else (.error (.connectionError incompleteMsg), rest)

-- The Array branch: [await self._read_response() for _ in range(count)].
def loopN (g : List Nat → Except PyErr RValue × List Nat) :
    Nat → List Nat → Except PyErr (List RValue) × List Nat
  | 0, s => (.ok [], s)
  | n + 1, s =>
    match g s with
    | (.ok v, s1) =>
      match loopN g n s1 with
      | (.ok l, s2) => (.ok (v :: l), s2)
      | (.error e, s2) => (.error e, s2)
    | (.error e, s1) => (.error e, s1)

-- The Set branch: a set comprehension; each decoded element is hashed (a
-- non-hashable element raises TypeError) and added, equal elements collapse.
def loopSet (g : List Nat → Except PyErr RValue × List Nat) :
    Nat → List Nat → List RValue → Except PyErr (List RValue) × List Nat
  | 0, s, acc => (.ok acc, s)
  | n + 1, s, acc =>
    match g s with
    | (.ok v, s1) =>
      if isHashable v then loopSet g n s1 (setInsert acc v)
      else (.error .typeError, s1)
    | (.error e, s1) => (.error e, s1)

-- The Map branch: a dict comprehension; per iteration the key is decoded
-- first, then the value (Python >= 3.8 evaluation order), the key is hashed
-- (TypeError if not hashable) and bound, overwriting an equal existing key.
def loopMap (g : List Nat → Except PyErr RValue × List Nat) :
    Nat → List Nat → List (RValue × RValue) → Except PyErr (List (RValue × RValue)) × List Nat
  | 0, s, acc => (.ok acc, s)
  | n + 1, s, acc =>
    match g s with
    | (.ok k, s1) =>
      match g s1 with
      | (.ok v, s2) =>
        if isHashable k then loopMap g n s2 (dictInsert acc k v)
        else (.error .typeError, s2)
      | (.error e, s2) => (.error e, s2)
    | (.error e, s1) => (.error e, s1)

-- Specification-side companion of loopMap: the same left-to-right reads,
-- collecting the (key, value) pairs in decode order instead of building the
-- dict.  Used to state in which order the Map branch consumes the stream.
def loopPairs (g : List Nat → Except PyErr RValue × List Nat) :
    Nat → List Nat → Except PyErr (List (RValue × RValue)) × List Nat
  | 0, s => (.ok [], s)
  | n + 1, s =>
    match g s with
    | (.ok k, s1) =>
      match g s1 with
      | (.ok v, s2) =>
        match loopPairs g n s2 with
        | (.ok ps, s3) => (.ok ((k, v) :: ps), s3)
        | (.error e, s3) => (.error e, s3)
      | (.error e, s2) => (.error e, s2)
    | (.error e, s1) => (.error e, s1)

-- Connection._read_response, fuel-indexed.  The fuel bounds aggregate
-- nesting depth only; it is decremented exactly when descending into an
-- the elements of an aggregate, so any fuel above the nesting depth of
-- the input gives the behavior of the source function.  Branches appear in
-- source order.
def readRespF : Nat → (List Nat → Except PyErr RValue × List Nat)
  | 0 => fun s => (.error .fuelOut, s)
  | f + 1 => fun s =>
    match splitCRLF s with
    | none => (.error .incompleteReadError, [])
    | some (data, rest) =>
      if data.drop (data.length - 2) = [13, 10] then
        let byte := data.take 1
        let resp := data.drop 1
        if byte = [45] then
          match from_response resp with
          | .ok (c, m) => (.error (.responseError c m), rest)
          | .error e => (.error e, rest)
        else if byte = [33] then
          match pyInt resp with
          | none => (.error .valueError, rest)
          | some n =>
            match readBytesM n rest with
            | (.ok body, r2) =>
              match from_response body with
              | .ok (c, m) => (.error (.responseError c m), r2)
              | .error e => (.error e, r2)
            | (.error e, r2) => (.error e, r2)
        else if byte = [43] then (.ok (.bytesv resp), rest)
        else if byte = [36] then
          match pyInt resp with
          | none => (.error .valueError, rest)
          | some n =>
            match readBytesM n rest with
            | (.ok body, r2) => (.ok (.bytesv body), r2)
            | (.error e, r2) => (.error e, r2)
        else if byte = [61] then
          match pyInt resp with
          | none => (.error .valueError, rest)
          | some n =>
            match readBytesM n rest with
            | (.ok body, r2) => (.ok (.bytesv (body.drop 4)), r2)
            | (.error e, r2) => (.error e, r2)
        else if byte = [58] ∨ byte = [40] then
          match pyInt resp with
          | none => (.error .valueError, rest)
          | some n => (.ok (.intv n), rest)
        else if byte = [44] then
          match pyFloatVal resp with
          | none => (.error .valueError, rest)
          | some t => (.ok (.floatv t), rest)
        else if byte = [35] then (.ok (.boolv (resp = [116])), rest)
        else if byte = [95] then (.ok .nullv, rest)
        else if byte = [42] then
          match pyInt resp with
          | none => (.error .valueError, rest)
          | some n =>
            match loopN (readRespF f) n.toNat rest with
            | (.ok l, r2) => (.ok (.arrayv l), r2)
            | (.error e, r2) => (.error e, r2)
        else if byte = [126] then
          match pyInt resp with
          | none => (.error .valueError, rest)
          | some n =>
            match loopSet (readRespF f) n.toNat rest [] with
            | (.ok l, r2) => (.ok (.setv l), r2)
            | (.error e, r2) => (.error e, r2)
        else if byte = [37] then
          match pyInt resp with
          | none => (.error .valueError, rest)
          | some n =>
            match loopMap (readRespF f) n.toNat rest [] with
            | (.ok d, r2) => (.ok (.mapv d), r2)
            | (.error e, r2) => (.error e, r2)
        else if byte = [62] ∨ byte = [124] then (.error .notImplementedError, rest)
        else (.error (.responseError byte (byte ++ str2bytes " is not a valid response type")), rest)
      else (.error (.connectionError incompleteMsg), rest)

-- Connection._discard_response, fuel-indexed like readRespF.  Scalar tags
-- consume only the header; blob tags read(int(count)) without the trailing
-- CRLF (read of a negative count consumes the whole stream, as asyncio
-- read(-1) reads to EOF); Array and Set discard ONE inner response, Map
-- discards two; unknown tags return silently.
def discardF : Nat → (List Nat → Except PyErr Unit × List Nat)
  | 0 => fun s => (.error .fuelOut, s)
  | f + 1 => fun s =>
    match splitCRLF s with
    | none => (.error .incompleteReadError, [])
    | some (data, rest) =>
      if data.drop (data.length - 2) = [13, 10] then
        let byte := data.take 1
        let resp := data.drop 1
        if byte = [45] ∨ byte = [43] ∨ byte = [58] ∨ byte = [40] ∨ byte = [44] ∨
            byte = [35] ∨ byte = [95] then (.ok (), rest)
        else if byte = [33] ∨ byte = [36] ∨ byte = [61] then
          match pyInt resp with
          | none => (.error .valueError, rest)
          | some n => (.ok (), if n < 0 then [] else rest.drop n.toNat)
        else if byte = [42] ∨ byte = [126] then discardF f rest
        else if byte = [37] then
          match discardF f rest with
          | (.ok _, r2) => discardF f r2
          | (.error e, r2) => (.error e, r2)
        else if byte = [62] then (.error .notImplementedError, rest)
        else if byte = [124] then (.error .notImplementedError, rest)
        else (.ok (), rest)
      else (.error (.connectionError incompleteMsg), rest)

-- One length plus one is always above the nesting depth any frame of that
-- length can announce, so these are the unbounded-recursion functions.
def readTop (s : List Nat) : Except PyErr RValue × List Nat := readRespF (s.length + 1) s

def discardTop (s : List Nat) : Except PyErr Unit × List Nat := discardF (s.length + 1) s

-- Connection state: alive models (reader is not None and writer is not
-- None); both are set and cleared together by connect and _close.  stream
-- holds the readable incoming bytes, sent the bytes written to the writer.
structure Conn where
  alive : Bool
  stream : List Nat
  sent : List Nat

def is_alive (c : Conn) : Bool := c.alive

-- Connection.disconnect: StateError when not alive, else close.
def disconnect (c : Conn) : Except PyErr Unit × Conn :=
  if c.alive then (.ok (), { c with alive := false })
  else (.error (.stateError closedMsg), c)

-- Which modeled exceptions are caught by an `except OSError` clause: only
-- the builtin ConnectionError; the disagain error tree, ValueError,
-- AssertionError, TypeError, NotImplementedError and IncompleteReadError
-- (an EOFError) are not OSErrors.
def isOSError : PyErr → Bool
  | .connectionError _ => true
  | _ => false

-- Connection.write_command body: b"*%i\r\n" % len(command), then per
-- argument b"$%i\r\n" % len(arg), the argument, CRLF, written in order.
def encodeCommandBytes (args : List (List Nat)) : List Nat :=
  args.foldl (fun acc a => acc ++ ([36] ++ natToDecBytes a.length ++ [13, 10] ++ a ++ [13, 10]))
    ([42] ++ natToDecBytes args.length ++ [13, 10])

def write_command (args : List (List Nat)) (c : Conn) : Except PyErr Unit × Conn :=
  if c.alive then (.ok (), { c with sent := c.sent ++ encodeCommandBytes args })
  else (.error (.stateError writeClosedMsg), c)

-- Connection._read_response entry: assert self._reader is not None.
def readInner (c : Conn) : Except PyErr RValue × List Nat :=
  if c.alive then readRespF (c.stream.length + 1) c.stream
  else (.error .assertionError, c.stream)

-- Connection.read_response: try the decoder; on OSError optionally
-- disconnect then raise ConnectionError; on any other exception optionally
-- disconnect then re-raise.  A StateError raised by that disconnect call
-- replaces the exception being handled.
def read_response (disconnect_on_error : Bool) (c : Conn) : Except PyErr RValue × Conn :=
  match readInner c with
  | (.ok v, s) => (.ok v, { c with stream := s })
  | (.error e, s) =>
    let c1 := { c with stream := s }
    if isOSError e then
      if disconnect_on_error then
        match disconnect c1 with
        | (.ok _, c2) => (.error (.connectionError readFailMsg), c2)
        | (.error e2, c2) => (.error e2, c2)
      else (.error (.connectionError readFailMsg), c1)
    else
      if disconnect_on_error then
        match disconnect c1 with
        | (.ok _, c2) => (.error e, c2)
        | (.error e2, c2) => (.error e2, c2)
      else (.error e, c1)

def discardInner (c : Conn) : Except PyErr Unit × List Nat :=
  if c.alive then discardF (c.stream.length + 1) c.stream
  else (.error .assertionError, c.stream)

-- Connection.discard_response: same error policy as read_response.
def discard_response (disconnect_on_error : Bool) (c : Conn) : Except PyErr Unit × Conn :=
  match discardInner c with
  | (.ok v, s) => (.ok v, { c with stream := s })
  | (.error e, s) =>
    let c1 := { c with stream := s }
    if isOSError e then
      if disconnect_on_error then
        match disconnect c1 with
        | (.ok _, c2) => (.error (.connectionError readFailMsg), c2)
        | (.error e2, c2) => (.error e2, c2)
      else (.error (.connectionError readFailMsg), c1)
    else
      if disconnect_on_error then
        match disconnect c1 with
        | (.ok _, c2) => (.error e, c2)
        | (.error e2, c2) => (.error e2, c2)
      else (.error e, c1)

-- Command argument values.  A textual string is carried as its utf-8 byte
-- sequence, so .encode() is the identity on the carried bytes; str(float)
-- output is likewise carried as its canonical text.
inductive CmdVal where
  | bytesA (b : List Nat)
  | strA (b : List Nat)
  | intA (i : Int)
  | floatA (t : List Nat)

def argNorm : CmdVal → List Nat
  | .bytesA b => b
  | .strA b => b
  | .intA i => intToDecBytes i
  | .floatA t => t

structure Command where
  arguments : List (List Nat)
  discard_response : Bool
  disconnect_on_error : Bool

def Command.arg (cmd : Command) (v : CmdVal) : Command :=
  { cmd with arguments := cmd.arguments ++ [argNorm v] }

-- Command.__init__(name, *args): flags default to discard_response=False,
-- disconnect_on_error=True; the verb then each argument are normalized and
-- appended in order.
def Command.new (name : CmdVal) (args : List CmdVal) : Command :=
  args.foldl Command.arg
    (Command.arg { arguments := [], discard_response := false, disconnect_on_error := true } name)

-- True exactly when a call outcome is a raised StateError.
def isStateErrResult : Except PyErr RValue → Bool
  | .error (.stateError _) => true
  | _ => false

-- Helper lemmas ------------------------------------------------------------

theorem splitCRLF_clean (l rest : List Nat) (h : ∀ b ∈ l, b ≠ 13) :
    splitCRLF (l ++ 13 :: 10 :: rest) = some (l ++ [13, 10], rest) := by
  induction l with
  | nil => simp [splitCRLF]
  | cons b t ih =>
    have hb : b ≠ 13 := h b (by simp)
    simp [splitCRLF, hb, ih (fun x hx => h x (by simp [hx]))]

theorem endsCRLF_append (x : List Nat) :
    (x ++ [13, 10]).drop ((x ++ [13, 10]).length - 2) = [13, 10] := by
  have h : (x ++ [13, 10]).length - 2 = x.length := by simp
  rw [h, List.drop_left]

theorem takeCRLF_append (x : List Nat) :
    (x ++ [13, 10]).take ((x ++ [13, 10]).length - 2) = x := by
  have h : (x ++ [13, 10]).length - 2 = x.length := by simp
  rw [h, List.take_left]

theorem natToDecBytes_digits (n : Nat) : ∀ b ∈ natToDecBytes n, 48 ≤ b ∧ b ≤ 57 := by
  induction n using natToDecBytes.induct with
  | case1 n h =>
    intro b hb
    rw [natToDecBytes, if_pos h] at hb
    simp at hb
    omega
  | case2 n h ih =>
    intro b hb
    rw [natToDecBytes, if_neg h] at hb
    rcases List.mem_append.mp hb with h1 | h1
    · exact ih b h1
    · have : n % 10 < 10 := Nat.mod_lt _ (by omega)
      simp at h1
      omega

theorem natToDecBytes_ne_nil (n : Nat) : natToDecBytes n ≠ [] := by
  rw [natToDecBytes]
  split <;> simp

theorem digitsValAux_append (a b : List Nat) (acc : Nat) :
    digitsValAux (a ++ b) acc =
      match digitsValAux a acc with
      | some x => digitsValAux b x
      | none => none := by
  induction a generalizing acc with
  | nil => simp [digitsValAux]
  | cons c t ih =>
    by_cases hc : 48 ≤ c ∧ c ≤ 57
    · simp [digitsValAux, hc, ih]
    · simp [digitsValAux, hc]

theorem digitsValAux_dec (n : Nat) :
    ∀ acc, digitsValAux (natToDecBytes n) acc =
      some (acc * 10 ^ (natToDecBytes n).length + n) := by
  induction n using natToDecBytes.induct with
  | case1 n h =>
    intro acc
    rw [natToDecBytes, if_pos h]
    have hd : 48 ≤ 48 + n ∧ 48 + n ≤ 57 := by omega
    simp [digitsValAux, hd]
  | case2 n h ih =>
    intro acc
    rw [natToDecBytes, if_neg h]
    rw [digitsValAux_append, ih acc]
    have hd : 48 ≤ 48 + n % 10 ∧ 48 + n % 10 ≤ 57 := by
      have : n % 10 < 10 := Nat.mod_lt _ (by omega)
      omega
    simp [digitsValAux, hd, pow_succ]
    rw [← mul_assoc]
    generalize acc * 10 ^ (natToDecBytes (n / 10)).length = a
    omega

theorem digitsVal_dec (n : Nat) : digitsVal (natToDecBytes n) = some n := by
  obtain ⟨x, xs, hx⟩ : ∃ x xs, natToDecBytes n = x :: xs := by
    cases hc : natToDecBytes n with
    | nil => exact absurd hc (natToDecBytes_ne_nil n)
    | cons x xs => exact ⟨x, xs, rfl⟩
  rw [hx]
  have : digitsVal (x :: xs) = digitsValAux (x :: xs) 0 := by rfl
  rw [this, ← hx, digitsValAux_dec n 0]
  simp

theorem isPyWs_digit (b : Nat) (h : 48 ≤ b ∧ b ≤ 57) : isPyWs b = false := by
  simp [isPyWs]
  omega

theorem pyStrip_clean (l : List Nat) (hl : l ≠ []) (h : ∀ b ∈ l, isPyWs b = false) :
    pyStrip (l ++ [13, 10]) = l := by
  obtain ⟨x, xs, rfl⟩ := List.exists_cons_of_ne_nil hl
  obtain ⟨y, ys, hy⟩ : ∃ y ys, (x :: xs).reverse = y :: ys := by
    cases hrev : (x :: xs).reverse with
    | nil => simp at hrev
    | cons y ys => exact ⟨y, ys, rfl⟩
  have h1 : isPyWs x = false := h x (by simp)
  have hyd : isPyWs y = false := by
    refine h y (List.mem_reverse.mp ?_)
    rw [hy]
    simp
  unfold pyStrip
  have hstep1 : ((x :: xs) ++ [13, 10]).dropWhile isPyWs = (x :: xs) ++ [13, 10] := by
    rw [List.cons_append, List.dropWhile_cons]
    simp [h1]
  rw [hstep1, List.reverse_append, hy]
  have hrev2 : (([13, 10] : List Nat).reverse ++ y :: ys) = 10 :: 13 :: y :: ys := by rfl
  rw [hrev2]
  have hstep2 : List.dropWhile isPyWs (10 :: 13 :: y :: ys) = y :: ys := by
    rw [List.dropWhile_cons, List.dropWhile_cons, List.dropWhile_cons]
    simp [show isPyWs 10 = true from rfl, show isPyWs 13 = true from rfl, hyd]
  rw [hstep2, ← hy, List.reverse_reverse]

theorem pyInt_decimal (n : Nat) : pyInt (natToDecBytes n ++ [13, 10]) = some (n : Int) := by
  unfold pyInt
  rw [pyStrip_clean _ (natToDecBytes_ne_nil n)
    (fun b hb => isPyWs_digit b (natToDecBytes_digits n b hb))]
  obtain ⟨x, xs, hx⟩ : ∃ x xs, natToDecBytes n = x :: xs := by
    cases hc : natToDecBytes n with
    | nil => exact absurd hc (natToDecBytes_ne_nil n)
    | cons x xs => exact ⟨x, xs, rfl⟩
  have hd := natToDecBytes_digits n x (by rw [hx]; simp)
  rw [hx]
  have h43 : x ≠ 43 := by omega
  have h45 : x ≠ 45 := by omega
  simp only [h43, h45, if_false]
  rw [← hx, digitsVal_dec]
  rfl

theorem takeWhile_before_space (code msg : List Nat) (hc : ∀ b ∈ code, b ≠ 32) :
    (code ++ 32 :: msg).takeWhile (fun b => b != 32) = code := by
  induction code with
  | nil => simp [List.takeWhile_cons]
  | cons b t ih =>
    have hb : (b != 32) = true := by simpa using hc b (by simp)
    simp [List.takeWhile_cons, hb, ih (fun x hx => hc x (by simp [hx]))]

theorem dropWhile_before_space (code msg : List Nat) (hc : ∀ b ∈ code, b ≠ 32) :
    (code ++ 32 :: msg).dropWhile (fun b => b != 32) = 32 :: msg := by
  induction code with
  | nil => simp [List.dropWhile_cons]
  | cons b t ih =>
    have hb : (b != 32) = true := by simpa using hc b (by simp)
    simp [List.dropWhile_cons, hb, ih (fun x hx => hc x (by simp [hx]))]

theorem from_response_split (code msg : List Nat) (hc : ∀ b ∈ code, b ≠ 32) :
    from_response (code ++ 32 :: msg) = .ok (code, msg) := by
  unfold from_response splitFirstSpace
  rw [if_pos (by simp : 32 ∈ code ++ 32 :: msg)]
  rw [takeWhile_before_space code msg hc, dropWhile_before_space code msg hc]
  rfl

theorem from_response_nospace (payload : List Nat) (hp : ¬ 32 ∈ payload) :
    from_response payload = .error .valueError := by
  unfold from_response splitFirstSpace
  rw [if_neg hp]

theorem readResp_simpleErrorFrame (f : Nat) (code msg rest : List Nat)
    (hc : ∀ b ∈ code, b ≠ 13 ∧ b ≠ 32) (hm : ∀ b ∈ msg, b ≠ 13) :
    readRespF (f + 1) (45 :: (code ++ 32 :: msg) ++ 13 :: 10 :: rest)
      = (.error (.responseError code (msg ++ [13, 10])), rest) := by
  have hclean : ∀ b ∈ 45 :: (code ++ 32 :: msg), b ≠ 13 := by
    intro b hb
    rcases List.mem_cons.mp hb with h1 | h1
    · omega
    · rcases List.mem_append.mp h1 with h2 | h2
      · exact (hc b h2).1
      · rcases List.mem_cons.mp h2 with h3 | h3
        · omega
        · exact hm b h3
  rw [show (45 :: (code ++ 32 :: msg) ++ 13 :: 10 :: rest)
        = (45 :: (code ++ 32 :: msg)) ++ 13 :: 10 :: rest from by simp]
  simp only [readRespF]
  rw [splitCRLF_clean _ rest hclean]
  simp only [endsCRLF_append (45 :: (code ++ 32 :: msg)), if_pos]
  have hbyte : ((45 :: (code ++ 32 :: msg)) ++ [13, 10]).take 1 = [45] := by
    simp
  have hresp : ((45 :: (code ++ 32 :: msg)) ++ [13, 10]).drop 1 = (code ++ 32 :: msg) ++ [13, 10] := by
    simp
  simp only [hbyte, hresp]
  rw [show ((code ++ 32 :: msg) ++ [13, 10] : List Nat) = code ++ 32 :: (msg ++ [13, 10]) from by simp]
  rw [from_response_split code (msg ++ [13, 10]) (fun b hb => (hc b hb).2)]
  simp

theorem readBytesM_exact (body rest : List Nat) (h : body ≠ []) :
    readBytesM (body.length : Int) (body ++ 13 :: 10 :: rest) = (.ok body, rest) := by
  have hpos : ¬ ((body.length : Int) ≤ 0) := by
    have := List.length_pos.mpr h
    omega
  have htake : List.take ((body.length : Int).toNat + 2) (body ++ 13 :: 10 :: rest)
      = body ++ [13, 10] := by
    rw [show body ++ 13 :: 10 :: rest = (body ++ [13, 10]) ++ rest from by simp]
    rw [show ((body.length : Int)).toNat + 2 = (body ++ [13, 10]).length from by simp]
    exact List.take_left _ _
  have hdrop : List.drop ((body.length : Int).toNat + 2) (body ++ 13 :: 10 :: rest) = rest := by
    rw [show body ++ 13 :: 10 :: rest = (body ++ [13, 10]) ++ rest from by simp]
    rw [show ((body.length : Int)).toNat + 2 = (body ++ [13, 10]).length from by simp]
    exact List.drop_left _ _
  unfold readBytesM
  rw [if_neg hpos]
  simp only [htake, hdrop, endsCRLF_append body, takeCRLF_append body]
  simp

theorem readResp_blobErrorFrame (f : Nat) (code msg rest : List Nat)
    (hc : ∀ b ∈ code, b ≠ 32) :
    readRespF (f + 1)
        (33 :: natToDecBytes (code ++ 32 :: msg).length ++
          13 :: 10 :: ((code ++ 32 :: msg) ++ 13 :: 10 :: rest))
      = (.error (.responseError code msg), rest) := by
  have hclean : ∀ b ∈ 33 :: natToDecBytes (code ++ 32 :: msg).length, b ≠ 13 := by
    intro b hb
    rcases List.mem_cons.mp hb with h1 | h1
    · omega
    · have := natToDecBytes_digits _ b h1
      omega
  rw [show (33 :: natToDecBytes (code ++ 32 :: msg).length ++
        13 :: 10 :: ((code ++ 32 :: msg) ++ 13 :: 10 :: rest))
      = (33 :: natToDecBytes (code ++ 32 :: msg).length) ++
        13 :: 10 :: ((code ++ 32 :: msg) ++ 13 :: 10 :: rest) from by simp]
  simp only [readRespF]
  rw [splitCRLF_clean _ _ hclean]
  simp only [endsCRLF_append (33 :: natToDecBytes (code ++ 32 :: msg).length), if_pos]
  have hbyte : ((33 :: natToDecBytes (code ++ 32 :: msg).length) ++ [13, 10]).take 1 = [33] := by
    simp
  have hresp : ((33 :: natToDecBytes (code ++ 32 :: msg).length) ++ [13, 10]).drop 1
      = natToDecBytes (code ++ 32 :: msg).length ++ [13, 10] := by
    simp
  simp only [hbyte, hresp, pyInt_decimal]
  rw [readBytesM_exact (code ++ 32 :: msg) rest (by simp)]
  simp [from_response_split code msg hc]

theorem readResp_setFrame (f n : Nat) (s : List Nat) :
    readRespF (f + 1) (126 :: natToDecBytes n ++ 13 :: 10 :: s)
      = (match loopSet (readRespF f) n s [] with
         | (.ok l, r2) => (.ok (.setv l), r2)
         | (.error e, r2) => (.error e, r2)) := by
  have hclean : ∀ b ∈ 126 :: natToDecBytes n, b ≠ 13 := by
    intro b hb
    rcases List.mem_cons.mp hb with h1 | h1
    · omega
    · have := natToDecBytes_digits _ b h1
      omega
  rw [show (126 :: natToDecBytes n ++ 13 :: 10 :: s)
      = (126 :: natToDecBytes n) ++ 13 :: 10 :: s from by simp]
  simp only [readRespF]
  rw [splitCRLF_clean _ _ hclean]
  simp only [endsCRLF_append (126 :: natToDecBytes n), if_pos]
  have hbyte : ((126 :: natToDecBytes n) ++ [13, 10]).take 1 = [126] := by simp
  have hresp : ((126 :: natToDecBytes n) ++ [13, 10]).drop 1 = natToDecBytes n ++ [13, 10] := by
    simp
  simp only [hbyte, hresp, pyInt_decimal]
  simp

theorem readResp_mapFrame (f n : Nat) (s : List Nat) :
    readRespF (f + 1) (37 :: natToDecBytes n ++ 13 :: 10 :: s)
      = (match loopMap (readRespF f) n s [] with
         | (.ok d, r2) => (.ok (.mapv d), r2)
         | (.error e, r2) => (.error e, r2)) := by
  have hclean : ∀ b ∈ 37 :: natToDecBytes n, b ≠ 13 := by
    intro b hb
    rcases List.mem_cons.mp hb with h1 | h1
    · omega
    · have := natToDecBytes_digits _ b h1
      omega
  rw [show (37 :: natToDecBytes n ++ 13 :: 10 :: s)
      = (37 :: natToDecBytes n) ++ 13 :: 10 :: s from by simp]
  simp only [readRespF]
  rw [splitCRLF_clean _ _ hclean]
  simp only [endsCRLF_append (37 :: natToDecBytes n), if_pos]
  have hbyte : ((37 :: natToDecBytes n) ++ [13, 10]).take 1 = [37] := by simp
  have hresp : ((37 :: natToDecBytes n) ++ [13, 10]).drop 1 = natToDecBytes n ++ [13, 10] := by
    simp
  simp only [hbyte, hresp, pyInt_decimal]
  simp

theorem pyEq_iff (x y : RValue) :
    pyEq x y = true ↔ ∃ a, canon x = some a ∧ canon y = some a := by
  unfold pyEq
  cases hx : canon x with
  | none => simp
  | some a =>
    cases hy : canon y with
    | none => simp
    | some b =>
      simp only [decide_eq_true_eq]
      constructor
      · intro h
        exact ⟨a, rfl, by rw [h]⟩
      · rintro ⟨c, h1, h2⟩
        rw [Option.some.injEq] at h1 h2
        rw [h1, h2]

theorem pyEq_self (v : RValue) (hv : isHashable v = true) : pyEq v v = true := by
  unfold isHashable at hv
  obtain ⟨a, ha⟩ := Option.isSome_iff_exists.mp hv
  exact (pyEq_iff v v).mpr ⟨a, ha, ha⟩

theorem pyEq_congr (x a k : RValue) (hxa : pyEq x a = true) : pyEq x k = pyEq a k := by
  obtain ⟨c, h1, h2⟩ := (pyEq_iff x a).mp hxa
  unfold pyEq
  rw [h1, h2]

theorem pyEq_of_both (x a k : RValue) (h1 : pyEq x k = true) (h2 : pyEq a k = true) :
    pyEq x a = true := by
  obtain ⟨c, hx, hk⟩ := (pyEq_iff x k).mp h1
  obtain ⟨c2, ha, hk2⟩ := (pyEq_iff a k).mp h2
  refine (pyEq_iff x a).mpr ⟨c, hx, ?_⟩
  rw [ha, ← hk2, hk]

theorem dictLookup_insert (d : List (RValue × RValue)) (a b k : RValue) :
    dictLookup (dictInsert d a b) k = if pyEq a k = true then some b else dictLookup d k := by
  induction d with
  | nil => simp [dictInsert, dictLookup]
  | cons p t ih =>
    obtain ⟨x, y⟩ := p
    by_cases hxa : pyEq x a = true
    · have hk : pyEq x k = pyEq a k := pyEq_congr x a k hxa
      by_cases hak : pyEq a k = true
      · simp [dictInsert, hxa, dictLookup, hk, hak]
      · simp [dictInsert, hxa, dictLookup, hk, hak]
    · by_cases hxk : pyEq x k = true
      · have hak : ¬ pyEq a k = true := by
          intro hak
          exact hxa (pyEq_of_both x a k hxk hak)
        simp [dictInsert, hxa, dictLookup, hxk, hak]
      · simp [dictInsert, hxa, dictLookup, hxk, ih]

theorem foldlLast_init (pairs : List (RValue × RValue)) (k : RValue) (o : Option RValue) :
    pairs.foldl (fun o p => if pyEq p.1 k then some p.2 else o) o
      = match lastAssoc pairs k with
        | some v => some v
        | none => o := by
  induction pairs generalizing o with
  | nil => simp [lastAssoc]
  | cons p t ih =>
    simp only [List.foldl_cons]
    rw [ih]
    rw [show lastAssoc (p :: t) k
        = t.foldl (fun o p => if pyEq p.1 k then some p.2 else o)
            (if pyEq p.1 k then some p.2 else none) from rfl]
    rw [ih]
    cases hL : lastAssoc t k <;> by_cases hc : pyEq p.1 k = true <;> simp [hc]

theorem lookup_foldl_insert (pairs : List (RValue × RValue)) (acc : List (RValue × RValue))
    (k : RValue) :
    dictLookup (pairs.foldl (fun m p => dictInsert m p.1 p.2) acc) k
      = match lastAssoc pairs k with
        | some v => some v
        | none => dictLookup acc k := by
  induction pairs generalizing acc with
  | nil => simp [lastAssoc]
  | cons p t ih =>
    simp only [List.foldl_cons]
    rw [ih, dictLookup_insert]
    rw [show lastAssoc (p :: t) k
        = t.foldl (fun o p => if pyEq p.1 k then some p.2 else o)
            (if pyEq p.1 k then some p.2 else none) from rfl]
    rw [foldlLast_init]
    cases hL : lastAssoc t k <;> by_cases hc : pyEq p.1 k = true <;> simp [hc]

theorem loopMap_pairs (g : List Nat → Except PyErr RValue × List Nat) (n : Nat) :
    ∀ s acc d tail, loopMap g n s acc = (.ok d, tail) →
      ∃ pairs, loopPairs g n s = (.ok pairs, tail)
        ∧ d = pairs.foldl (fun m p => dictInsert m p.1 p.2) acc := by
  induction n with
  | zero =>
    intro s acc d tail h
    simp only [loopMap, Prod.mk.injEq, Except.ok.injEq] at h
    exact ⟨[], by simp [loopPairs, h.2], by simp [h.1]⟩
  | succ m ih =>
    intro s acc d tail h
    rw [loopMap] at h
    split at h
    next k1 s1 hgs =>
      split at h
      next v1 s2 hgs2 =>
        split at h
        · obtain ⟨pairs, h1, h2⟩ := ih _ _ _ _ h
          refine ⟨(k1, v1) :: pairs, ?_, ?_⟩
          · simp [loopPairs, hgs, hgs2, h1]
          · simp [h2]
        · simp at h
      next e2 s2 hgs2 => simp at h
    next e1 s1 hgs => simp at h

theorem loopSet_const (g : List Nat → Except PyErr RValue × List Nat) (enc : List Nat)
    (v : RValue) (hg : ∀ r, g (enc ++ r) = (.ok v, r)) (hv : isHashable v = true) :
    ∀ m tail, loopSet g m ((List.replicate m enc).flatten ++ tail) [v] = (.ok [v], tail) := by
  intro m
  induction m with
  | zero => intro tail; simp [loopSet]
  | succ k ih =>
    intro tail
    rw [show (List.replicate (k + 1) enc).flatten ++ tail
        = enc ++ ((List.replicate k enc).flatten ++ tail) from by simp [List.replicate_succ]]
    rw [loopSet, hg ((List.replicate k enc).flatten ++ tail)]
    have hins : setInsert [v] v = [v] := by
      simp [setInsert, pyEq_self v hv]
    simp only [hv, if_true, hins]
    exact ih tail

theorem encodeCommandBytes_spec (args : List (List Nat)) :
    encodeCommandBytes args
      = [42] ++ natToDecBytes args.length ++ [13, 10] ++
        (args.map (fun a => [36] ++ natToDecBytes a.length ++ [13, 10] ++ a ++ [13, 10])).flatten := by
  unfold encodeCommandBytes
  have H : ∀ (l : List (List Nat)) (acc : List Nat),
      l.foldl (fun acc a => acc ++ ([36] ++ natToDecBytes a.length ++ [13, 10] ++ a ++ [13, 10])) acc
        = acc ++ (l.map (fun a => [36] ++ natToDecBytes a.length ++ [13, 10] ++ a ++ [13, 10])).flatten := by
    intro l
    induction l with
    | nil => intro acc; simp
    | cons x t ih =>
      intro acc
      rw [List.foldl_cons, ih]
      simp
  rw [H]

-- Claim theorems ------------------------------------------------------------

/-- Claim C1: the spec claims discard_response consumes exactly the bytes a
decode of the same frame consumes, recursively discarding count (resp.
2 x count) inner responses of an Array/Set (resp. Map) frame.  The code
violates this: on the Array frame *2\x0d\x0a:1\x0d\x0a:2\x0d\x0a the decoder
consumes all 12 bytes while discard recurses once and leaves :2\x0d\x0a
unread; on a Map frame discard recurses exactly twice regardless of count;
on a BlobString discard also skips the trailing CRLF.  This theorem
evaluates both traversals at those inputs, exhibiting the divergence. -/
theorem c1_divergence :
    readTop (str2bytes "*2\r\n:1\r\n:2\r\n") = (.ok (.arrayv [.intv 1, .intv 2]), [])
    ∧ discardTop (str2bytes "*2\r\n:1\r\n:2\r\n") = (.ok (), str2bytes ":2\r\n")
    ∧ readTop (str2bytes "%2\r\n:1\r\n:2\r\n:3\r\n:4\r\n")
        = (.ok (.mapv [(.intv 1, .intv 2), (.intv 3, .intv 4)]), [])
    ∧ discardTop (str2bytes "%2\r\n:1\r\n:2\r\n:3\r\n:4\r\n") = (.ok (), str2bytes ":3\r\n:4\r\n")
    ∧ readTop (str2bytes "$3\r\nfoo\r\n") = (.ok (.bytesv (str2bytes "foo")), [])
    ∧ discardTop (str2bytes "$3\r\nfoo\r\n") = (.ok (), [13, 10])
    ∧ str2bytes ":2\r\n" ≠ ([] : List Nat) :=
  ⟨rfl, rfl, rfl, rfl, rfl, rfl, by decide⟩

/-- Claim C3: the spec claims a blob-body read returning fewer bytes than
requested raises ConnectionError.  The code only checks that the last two
returned bytes are CRLF: on $5\x0d\x0aab\x0d\x0a followed by EOF, read(7)
returns the 4 available bytes, the CRLF check passes, and decoding succeeds
with b"ab" instead of raising.  (A bad terminator does raise, second
conjunct.)  This theorem evaluates the decoder at the failing input. -/
theorem c3_divergence :
    readTop (str2bytes "$5\r\nab\r\n") = (.ok (.bytesv (str2bytes "ab")), [])
    ∧ readTop (str2bytes "$5\r\nabcXY") = (.error (.connectionError incompleteMsg), []) :=
  ⟨rfl, rfl⟩

/-- Claim C5: the spec claims the zero-length BlobString frame
$0\x0d\x0a\x0d\x0a decodes to the empty byte-string.  The code asserts
n > 0 in _read_bytes, so this frame raises AssertionError instead.  This
theorem evaluates the decoder at the failing input. -/
theorem c5_divergence :
    readTop (str2bytes "$0\r\n\r\n") = (.error .assertionError, [13, 10]) := rfl

/-- Claim C6: the spec claims #t decodes to true, #f to false and any other
Boolean payload raises ResponseError.  The code compares the header
remainder, which still carries the trailing CRLF, against b"t", so every
Boolean frame decodes to false and no ResponseError is raised.  This
theorem evaluates the decoder at the three payloads. -/
theorem c6_divergence :
    readTop (str2bytes "#t\r\n") = (.ok (.boolv false), [])
    ∧ readTop (str2bytes "#f\r\n") = (.ok (.boolv false), [])
    ∧ readTop (str2bytes "#x\r\n") = (.ok (.boolv false), []) :=
  ⟨rfl, rfl, rfl⟩

/-- Claim C2 counterexample: decoding a SimpleError with the default
disconnect_on_error = true raises ResponseError but also disconnects, so
the connection is NOT alive afterwards, contradicting the claim. -/
theorem c2_counterexample :
    read_response true ⟨true, str2bytes "-ERR wrong number of arguments\r\n", []⟩
      = (.error (.responseError (str2bytes "ERR") (str2bytes "wrong number of arguments\r\n")),
        ⟨false, [], []⟩)
    ∧ is_alive (read_response true ⟨true, str2bytes "-ERR wrong number of arguments\r\n", []⟩).2
        = false :=
  ⟨rfl, rfl⟩

/-- Claim C2 (amended): read_response on a SimpleError or BlobError frame
raises ResponseError(code, message); the connection remains alive only when
disconnect_on_error = false, while under the default true the handler
disconnects before re-raising (and for SimpleError the message keeps the
trailing CRLF of the header line). -/
theorem c2_amended (doe : Bool) (code msg rest sent : List Nat)
    (hc : ∀ b ∈ code, b ≠ 13 ∧ b ≠ 32) (hm : ∀ b ∈ msg, b ≠ 13) :
    read_response doe ⟨true, 45 :: (code ++ 32 :: msg) ++ 13 :: 10 :: rest, sent⟩
        = (.error (.responseError code (msg ++ [13, 10])), ⟨!doe, rest, sent⟩)
    ∧ read_response doe ⟨true, 33 :: natToDecBytes (code ++ 32 :: msg).length ++
          13 :: 10 :: ((code ++ 32 :: msg) ++ 13 :: 10 :: rest), sent⟩
        = (.error (.responseError code msg), ⟨!doe, rest, sent⟩) := by
  constructor
  · have h2 : readInner ⟨true, 45 :: (code ++ 32 :: msg) ++ 13 :: 10 :: rest, sent⟩
        = (.error (.responseError code (msg ++ [13, 10])), rest) :=
      readResp_simpleErrorFrame _ code msg rest hc hm
    unfold read_response
    rw [h2]
    cases doe <;> simp [isOSError, disconnect]
  · have h2 : readInner ⟨true, 33 :: natToDecBytes (code ++ 32 :: msg).length ++
          13 :: 10 :: ((code ++ 32 :: msg) ++ 13 :: 10 :: rest), sent⟩
        = (.error (.responseError code msg), rest) :=
      readResp_blobErrorFrame _ code msg rest (fun b hb => (hc b hb).2)
    unfold read_response
    rw [h2]
    cases doe <;> simp [isOSError, disconnect]

/-- Claim C2 witness: the amended theorem applied at a concrete frame. -/
theorem c2_witness :
    read_response false ⟨true, 45 :: (([69, 82, 82] ++ 32 :: [98, 111, 111, 109]) : List Nat)
          ++ 13 :: 10 :: [], []⟩
      = (.error (.responseError [69, 82, 82] ([98, 111, 111, 109] ++ [13, 10])), ⟨!false, [], []⟩) :=
  (c2_amended false [69, 82, 82] [98, 111, 111, 109] [] [] (by decide) (by decide)).1

/-- Claim C4 counterexample: read_response with disconnect_on_error = false
on a dead connection raises AssertionError (from the reader assert), not
StateError, contradicting the claim for that invocation. -/
theorem c4_counterexample :
    read_response false ⟨false, [], []⟩ = (.error .assertionError, ⟨false, [], []⟩)
    ∧ isStateErrResult (read_response false ⟨false, [], []⟩).1 = false :=
  ⟨rfl, rfl⟩

/-- Claim C4 (amended): on a non-alive connection, write_command and
disconnect raise StateError directly; read_response and discard_response
raise StateError only when disconnect_on_error = true (the StateError comes
from the disconnect attempted while handling the assert failure), and raise
AssertionError when disconnect_on_error = false. -/
theorem c4_amended (c : Conn) (args : List (List Nat)) (h : c.alive = false) :
    (write_command args c).1 = .error (.stateError writeClosedMsg)
    ∧ (disconnect c).1 = .error (.stateError closedMsg)
    ∧ (read_response true c).1 = .error (.stateError closedMsg)
    ∧ (discard_response true c).1 = .error (.stateError closedMsg)
    ∧ (read_response false c).1 = .error .assertionError
    ∧ (discard_response false c).1 = .error .assertionError := by
  refine ⟨?_, ?_, ?_, ?_, ?_, ?_⟩ <;>
    simp [write_command, disconnect, read_response, discard_response, readInner, discardInner,
      isOSError, h]

/-- Claim C4 witness: the amended theorem applied to a closed connection. -/
theorem c4_witness :
    (write_command [] ⟨false, [], []⟩).1 = .error (.stateError writeClosedMsg)
    ∧ (disconnect ⟨false, [], []⟩).1 = .error (.stateError closedMsg)
    ∧ (read_response true ⟨false, [], []⟩).1 = .error (.stateError closedMsg)
    ∧ (discard_response true ⟨false, [], []⟩).1 = .error (.stateError closedMsg)
    ∧ (read_response false ⟨false, [], []⟩).1 = .error .assertionError
    ∧ (discard_response false ⟨false, [], []⟩).1 = .error .assertionError :=
  c4_amended ⟨false, [], []⟩ [] rfl

/-- Claim C7 counterexample: the Set frame of count 2 whose two elements
both decode to the integer 1 yields a one-element set, not a two-element
collection: the decoder builds a Python set and equal values collapse. -/
theorem c7_counterexample :
    readTop (str2bytes "~2\r\n:1\r\n:1\r\n") = (.ok (.setv [.intv 1]), [])
    ∧ ([RValue.intv 1] : List RValue).length ≠ 2 :=
  ⟨rfl, by decide⟩

/-- Claim C7 (amended): the Set decoder returns one element per DISTINCT
decoded value: a Set frame of count n >= 1 whose inner frames all decode to
the same hashable value v yields the one-element collection containing v,
with all n inner frames consumed. -/
theorem c7_amended (f n : Nat) (enc tail : List Nat) (v : RValue)
    (hn : 1 ≤ n) (hv : isHashable v = true)
    (helem : ∀ r, readRespF f (enc ++ r) = (.ok v, r)) :
    readRespF (f + 1)
        (126 :: natToDecBytes n ++ 13 :: 10 :: ((List.replicate n enc).flatten ++ tail))
      = (.ok (.setv [v]), tail) := by
  rw [readResp_setFrame]
  obtain ⟨m, rfl⟩ : ∃ m, n = m + 1 := ⟨n - 1, by omega⟩
  rw [show (List.replicate (m + 1) enc).flatten ++ tail
      = enc ++ ((List.replicate m enc).flatten ++ tail) from by simp [List.replicate_succ]]
  rw [loopSet, helem ((List.replicate m enc).flatten ++ tail)]
  simp only [hv, if_true, show setInsert [] v = [v] from by simp [setInsert]]
  rw [loopSet_const (readRespF f) enc v helem hv m tail]

/-- Claim C7 witness: the amended theorem applied to a count-2 Set frame of
two :1 elements. -/
theorem c7_witness :
    readRespF 2 (126 :: natToDecBytes 2 ++ 13 :: 10 ::
        ((List.replicate 2 [58, 49, 13, 10]).flatten ++ []))
      = (.ok (.setv [.intv 1]), []) :=
  c7_amended 1 2 [58, 49, 13, 10] [] (.intv 1) (by omega) (by rfl) (fun r => rfl)

/-- Claim C8: for every command with at least one argument, write_command on
an alive connection writes exactly *N CRLF followed by, per argument in
order, a dollar sign, the decimal byte length, CRLF, the argument bytes and
CRLF; in particular Command("SET", "k", "v") normalizes to the three
arguments b"SET", b"k", b"v" whose encoding is
*3\x0d\x0a$3\x0d\x0aSET\x0d\x0a$1\x0d\x0ak\x0d\x0a$1\x0d\x0av\x0d\x0a. -/
theorem c8_encoding (c : Conn) (args : List (List Nat)) (hne : args ≠ []) (h : c.alive = true) :
    write_command args c
      = (.ok (), { c with sent := c.sent ++
          ([42] ++ natToDecBytes args.length ++ [13, 10] ++
            (args.map (fun a => [36] ++ natToDecBytes a.length ++ [13, 10] ++ a ++ [13, 10])).flatten) })
    ∧ (Command.new (.strA [83, 69, 84]) [.strA [107], .strA [118]]).arguments
        = [[83, 69, 84], [107], [118]]
    ∧ encodeCommandBytes [[83, 69, 84], [107], [118]]
        = str2bytes "*3\r\n$3\r\nSET\r\n$1\r\nk\r\n$1\r\nv\r\n" := by
  refine ⟨?_, by rfl, ?_⟩
  · unfold write_command
    rw [if_pos h, encodeCommandBytes_spec]
  · have h3 : natToDecBytes 3 = [51] := by rw [natToDecBytes]; norm_num
    have h1 : natToDecBytes 1 = [49] := by rw [natToDecBytes]; norm_num
    simp [encodeCommandBytes, h3, h1, str2bytes]

/-- Claim C8 witness: the theorem applied to a one-argument command on an
alive connection. -/
theorem c8_witness :
    write_command [[65]] ⟨true, [], []⟩
      = (.ok (), { (⟨true, [], []⟩ : Conn) with sent := [] ++
          ([42] ++ natToDecBytes ([[65]] : List (List Nat)).length ++ [13, 10] ++
            (([[65]] : List (List Nat)).map
              (fun a => [36] ++ natToDecBytes a.length ++ [13, 10] ++ a ++ [13, 10])).flatten) }) :=
  (c8_encoding ⟨true, [], []⟩ [[65]] (by simp) rfl).1

/-- Claim C9 counterexample: for the SimpleError frame -ERR boom the raised
message of the raised ResponseError is b"boom\x0d\x0a", the text after the first space
with the header CRLF still attached, not b"boom" as the claim states. -/
theorem c9_counterexample :
    readTop (str2bytes "-ERR boom\r\n")
      = (.error (.responseError (str2bytes "ERR") (str2bytes "boom\r\n")), [])
    ∧ str2bytes "boom\r\n" ≠ str2bytes "boom" :=
  ⟨rfl, by decide⟩

/-- Claim C9 (amended): from_response splits its payload at the first space
into code and message and raises ValueError (not a ResponseError) when the
payload has no space; through the decoder, a BlobError body yields exactly
ResponseError(code, message), while a SimpleError yields
ResponseError(code, message ++ CRLF) because the header remainder keeps its
terminator. -/
theorem c9_amended (f : Nat) (code msg rest payload2 : List Nat)
    (hc : ∀ b ∈ code, b ≠ 13 ∧ b ≠ 32) (hm : ∀ b ∈ msg, b ≠ 13)
    (hp : ¬ 32 ∈ payload2) :
    from_response (code ++ 32 :: msg) = .ok (code, msg)
    ∧ from_response payload2 = .error .valueError
    ∧ readRespF (f + 1) (45 :: (code ++ 32 :: msg) ++ 13 :: 10 :: rest)
        = (.error (.responseError code (msg ++ [13, 10])), rest)
    ∧ readRespF (f + 1) (33 :: natToDecBytes (code ++ 32 :: msg).length ++
          13 :: 10 :: ((code ++ 32 :: msg) ++ 13 :: 10 :: rest))
        = (.error (.responseError code msg), rest) :=
  ⟨from_response_split code msg (fun b hb => (hc b hb).2),
   from_response_nospace payload2 hp,
   readResp_simpleErrorFrame f code msg rest hc hm,
   readResp_blobErrorFrame f code msg rest (fun b hb => (hc b hb).2)⟩

/-- Claim C9 witness: the amended theorem applied to code ERR, message boom
and the spaceless payload b"X". -/
theorem c9_witness :
    from_response ([69, 82, 82] ++ 32 :: [98, 111, 111, 109]) = .ok ([69, 82, 82], [98, 111, 111, 109])
    ∧ from_response [88] = .error .valueError
    ∧ readRespF 1 (45 :: (([69, 82, 82] ++ 32 :: [98, 111, 111, 109]) : List Nat) ++ 13 :: 10 :: [])
        = (.error (.responseError [69, 82, 82] ([98, 111, 111, 109] ++ [13, 10])), [])
    ∧ readRespF 1 (33 :: natToDecBytes (([69, 82, 82] ++ 32 :: [98, 111, 111, 109]) : List Nat).length ++
          13 :: 10 :: ((([69, 82, 82] ++ 32 :: [98, 111, 111, 109]) : List Nat) ++ 13 :: 10 :: []))
        = (.error (.responseError [69, 82, 82] [98, 111, 111, 109]), []) :=
  c9_amended 0 [69, 82, 82] [98, 111, 111, 109] [] [88] (by decide) (by decide) (by decide)

/-- Claim C10: the Map branch decodes its 2n inner frames strictly left to
right, each key immediately before its value (loopPairs is that order made
explicit), builds the dict by inserting each pair in order, and when two
decoded keys are equal the binding of the last occurrence wins: the lookup
of any key in the returned mapping equals the value of the last pair whose
key compares equal. -/
theorem c10_map (f n : Nat) (s tail : List Nat) (d pairs : List (RValue × RValue)) (k : RValue)
    (h : loopMap (readRespF f) n s [] = (.ok d, tail))
    (hp : loopPairs (readRespF f) n s = (.ok pairs, tail)) :
    readRespF (f + 1) (37 :: natToDecBytes n ++ 13 :: 10 :: s) = (.ok (.mapv d), tail)
    ∧ d = pairs.foldl (fun m p => dictInsert m p.1 p.2) []
    ∧ dictLookup d k = lastAssoc pairs k := by
  obtain ⟨pairs2, h1, h2⟩ := loopMap_pairs (readRespF f) n s [] d tail h
  have hpe : pairs2 = pairs := by
    rw [h1] at hp
    simpa using hp
  subst hpe
  refine ⟨?_, h2, ?_⟩
  · rw [readResp_mapFrame, h]
  · rw [h2, lookup_foldl_insert]
    cases lastAssoc pairs2 k <;> simp [dictLookup]

/-- Claim C10 witness: the theorem applied to the duplicate-key Map frame
%2 with pairs (1, 10) and (1, 20); the mapping binds 1 to 20. -/
theorem c10_witness :
    readRespF 2 (37 :: natToDecBytes 2 ++ 13 :: 10 :: str2bytes ":1\r\n:10\r\n:1\r\n:20\r\n")
      = (.ok (.mapv [(.intv 1, .intv 20)]), [])
    ∧ ([(.intv 1, .intv 20)] : List (RValue × RValue))
        = ([((.intv 1 : RValue), (.intv 10 : RValue)), (.intv 1, .intv 20)]).foldl
            (fun m p => dictInsert m p.1 p.2) []
    ∧ dictLookup [(.intv 1, .intv 20)] (.intv 1)
        = lastAssoc [((.intv 1 : RValue), (.intv 10 : RValue)), (.intv 1, .intv 20)] (.intv 1) :=
  c10_map 1 2 (str2bytes ":1\r\n:10\r\n:1\r\n:20\r\n") [] [(.intv 1, .intv 20)]
    [((.intv 1 : RValue), (.intv 10 : RValue)), (.intv 1, .intv 20)] (.intv 1) (by rfl) (by rfl)
